import Mathlib

/-!
Shallow embedding of the transcription server (src/server.js and the
near-duplicate variant src/unnamed/part_000) for verification of the
specification's claims.

The embedding models the pure decision logic of the pipeline directly from
the source.  External effects (the ffmpeg encoder, the file system, the
remote transcription vendor) are modelled as explicit oracles passed in as
function arguments, so every definition is executable on concrete inputs.
Promise rejections become `Except`/sum results; the JavaScript `finally`
block becomes an explicit finalizer applied to the body's outcome.
-/

/-- JavaScript values as they appear in the JSON objects this server builds:
strings, booleans, numbers (modelled as rationals) and null. -/
inductive JVal where
  | jstr (s : String)
  | jbool (b : Bool)
  | jnum (q : ℚ)
  | jnull
deriving DecidableEq, Repr

/-- A JavaScript object, as an insertion-ordered association list.  A real JS
object has pairwise-distinct keys; theorems that quantify over caller-supplied
objects assume `Nodup` of the keys where it matters. -/
abbrev JObj := List (String × JVal)

/-- Property assignment `o[k] = v`: overwrite the existing entry in place, or
append a new entry at the end (JS insertion order). -/
def jset (o : JObj) (k : String) (v : JVal) : JObj :=
  match o with
  | [] => [(k, v)]
  | (k1, v1) :: rest => if k1 = k then (k, v) :: rest else (k1, v1) :: jset rest k v

/-- Property lookup `o[k]`, `none` meaning `undefined`. -/
def jlookup (o : JObj) (k : String) : Option JVal :=
  match o with
  | [] => none
  | (k1, v1) :: rest => if k1 = k then some v1 else jlookup rest k

/-- `delete o[k]`: remove the entry for `k` (a JS object holds each key at
most once). -/
def jdel (o : JObj) (k : String) : JObj :=
  match o with
  | [] => []
  | (k1, v1) :: rest => if k1 = k then jdel rest k else (k1, v1) :: jdel rest k

/-- Object spread `\x7b ...base, ...extra \x7d`: keys of `extra` override those
of `base`, fresh keys are appended in order. -/
def jspread (base extra : JObj) : JObj :=
  extra.foldl (fun acc kv => jset acc kv.1 kv.2) base

/-- JavaScript truthiness of a value. -/
def jsTruthy : JVal → Bool
  | .jstr s => s ≠ ""
  | .jbool b => b
  | .jnum q => q ≠ 0
  | .jnull => false

/-- Truthiness of a possibly-`undefined` value. -/
def jsTruthyO : Option JVal → Bool
  | none => false
  | some v => jsTruthy v

/-- `v || d` on JavaScript values: `v` when truthy, else the default `d`. -/
def jsOrDefault (v : Option JVal) (d : JVal) : JVal :=
  match v with
  | some x => if jsTruthy x then x else d
  | none => d

/-- Boolean list-prefix test (our own, so proofs do not depend on library
internals). -/
def isPrefixL : List Char → List Char → Bool
  | [], _ => true
  | _ :: _, [] => false
  | p :: ps, c :: cs => p = c && isPrefixL ps cs

/-- JavaScript `s.endsWith(pat)`. -/
def endsWithS (s pat : String) : Bool :=
  isPrefixL pat.data.reverse s.data.reverse

/-- One step of JavaScript `String.prototype.replace` with a plain-string
pattern: replace the first occurrence only; the string is returned unchanged
when the pattern does not occur. -/
def replaceFirstL (s pat rep : List Char) : List Char :=
  match s with
  | [] => []
  | c :: rest =>
    if isPrefixL pat (c :: rest) then rep ++ (c :: rest).drop pat.length
    else c :: replaceFirstL rest pat rep

/-- JavaScript `s.replace(pat, rep)` (plain-string pattern, first occurrence). -/
def jsReplaceFirst (s pat rep : String) : String :=
  ⟨replaceFirstL s.data pat.data rep.data⟩

/-- Outcome of `convertVideoToAudio`: the resolved output path, the rejection
error, or divergence of the fallback recursion (never reached by the claims'
hypotheses; the source recursion terminates because each fallback rewrites the
first `.mp3` of the target). -/
inductive ConvResult where
  | ok (path : String)
  | err (msg : String)
  | diverged
deriving DecidableEq, Repr

/-- A run of the converter: final outcome plus the ordered list of output
paths that ffmpeg was asked to produce (one entry per encoder invocation). -/
structure ConvRun where
  result : ConvResult
  attempts : List String
deriving DecidableEq, Repr

/-- Fuelled body of `convertVideoToAudio` (src/server.js lines 52-103).
`ff inp out = none` means the ffmpeg invocation for that input/output pair
succeeds; `some e` means it emits error `e`.  On error with a `.mp3` target
the source retries the whole conversion at the path whose first `.mp3` is
replaced by `.wav`; a `.wav` target rejects terminally. -/
def convertAux (ff : String → String → Option String) (inputPath : String) :
    Nat → String → ConvRun
  | 0, _ => ⟨.diverged, []⟩
  | fuel + 1, outputPath =>
    let isWav := endsWithS outputPath ".wav"
    match ff inputPath outputPath with
    | none => ⟨.ok outputPath, [outputPath]⟩
    | some e =>
      if !isWav && endsWithS outputPath ".mp3" then
        let wavPath := jsReplaceFirst outputPath ".mp3" ".wav"
        let r := convertAux ff inputPath fuel wavPath
        ⟨r.result, outputPath :: r.attempts⟩
      else ⟨.err e, [outputPath]⟩

/-- `convertVideoToAudio` with enough fuel for every path reachable from the
claims (each fallback step consumes one character-length of fuel at most once
per `.mp3` occurrence, and occurrences are bounded by the length). -/
def convertVideoToAudio (ff : String → String → Option String)
    (inputPath outputPath : String) : ConvRun :=
  convertAux ff inputPath (outputPath.data.length + 1) outputPath

/-- Trailing path separators, as stripped by Node's `path.basename`. -/
def stripTrailingSlashes (s : List Char) : List Char :=
  (s.reverse.dropWhile (fun c => c = '/')).reverse

/-- Node `path.basename` (posix): last path segment, trailing slashes
stripped. -/
def basenameL (s : List Char) : List Char :=
  (stripTrailingSlashes s).foldl (fun acc c => if c = '/' then [] else acc ++ [c]) []

/-- Node `path.basename` lifted to `String`. -/
def jsBasename (s : String) : String :=
  ⟨basenameL s.data⟩

/-- The suffix of the list starting at its last `'.'`, if any. -/
def lastDotSuffix : List Char → Option (List Char)
  | [] => none
  | c :: rest =>
    match lastDotSuffix rest with
    | some e => some e
    | none => if c = '.' then some (c :: rest) else none

/-- Node `path.extname`: the extension of the basename, from its last dot; a
dot that starts the basename does not count, and `".."` has no extension. -/
def extnameL (name : List Char) : List Char :=
  match basenameL name with
  | [] => []
  | b :: brest =>
    match lastDotSuffix brest with
    | none => []
    | some e => if b = '.' ∧ brest = ['.'] then [] else e

/-- Node `path.extname` lifted to `String`. -/
def jsExtname (s : String) : String :=
  ⟨extnameL s.data⟩

/-- JavaScript `s.toLowerCase()` (ASCII range, which covers every extension
the server compares). -/
def jsToLower (s : String) : String :=
  ⟨s.data.map Char.toLower⟩

/-- The extension allow-list of `validateMediaFile`
(src/server.js line 249). -/
def allowedExtensions : List String :=
  [".mp4", ".avi", ".mov", ".mkv", ".webm", ".mp3", ".wav", ".m4a", ".aac", ".flac"]

/-- The record `validateMediaFile` resolves with. -/
structure FileInfo where
  size : Nat
  extension : String
  name : String
deriving DecidableEq, Repr

/-- The file-system view a request sees: which paths exist and their byte
sizes (`fs.existsSync` / `fs.statSync(...).size`). -/
structure FSView where
  files : List String
  size : String → Nat

/-- `validateMediaFile` (src/server.js lines 240-262): existence check, then
emptiness check, then extension allow-list check on the lowercased extension
of the original name; resolves with size, extension and name. -/
def validateMediaFile (fsv : FSView) (filePath originalName : String) :
    Except String FileInfo :=
  if filePath ∉ fsv.files then .error "Arquivo não encontrado"
  else if fsv.size filePath = 0 then .error "Arquivo está vazio"
  else
    let extension := jsToLower (jsExtname originalName)
    if extension ∉ allowedExtensions then
      .error ("Formato não suportado: " ++ extension ++ ". Formatos aceitos: "
        ++ String.intercalate ", " allowedExtensions)
    else .ok ⟨fsv.size filePath, extension, originalName⟩

/-- The JSON payload of one status poll of the vendor, as consumed by
`waitForTranscription` and `transcribeAudio`. -/
structure TranscriptData where
  status : String
  error : String
  text : String
  confidence : ℚ
  language_code : JVal
  words : Option JVal
  utterances : Option JVal
deriving DecidableEq, Repr

/-- One response of the vendor's status endpoint: an HTTP-level failure
(`response.ok` false) or a JSON body. -/
inductive PollResp where
  | httpFail (status : Nat) (body : String)
  | json (d : TranscriptData)
deriving DecidableEq, Repr

/-- Terminal outcome of the polling loop; `pending` records that the supplied
response sequence was exhausted with the loop still running (the source loop
is unbounded). -/
inductive PollResult where
  | done (d : TranscriptData)
  | failed (msg : String)
  | pending
deriving DecidableEq, Repr

/-- A run of the polling loop: outcome, number of status requests issued, and
the list of inter-poll delays (milliseconds) actually awaited. -/
structure PollRun where
  result : PollResult
  requests : Nat
  delays : List Nat
deriving DecidableEq, Repr

/-- `waitForTranscription` (src/server.js lines 182-213) over the vendor's
response sequence: one request per response; `completed` returns the whole
payload, `error` throws with the vendor's message, an HTTP failure throws
with status and body, anything else sleeps 3000 ms and loops. -/
def waitForTranscription : List PollResp → PollRun
  | [] => ⟨.pending, 0, []⟩
  | .httpFail st body :: _ =>
    ⟨.failed ("Erro ao verificar status: " ++ toString st ++ " - " ++ body), 1, []⟩
  | .json d :: rest =>
    if d.status = "completed" then ⟨.done d, 1, []⟩
    else if d.status = "error" then
      ⟨.failed ("Erro na transcrição: " ++ d.error), 1, []⟩
    else
      let w := waitForTranscription rest
      ⟨w.result, w.requests + 1, 3000 :: w.delays⟩

/-- The job-submission request built by `startTranscription`
(src/server.js lines 143-157): defaults, then the caller's options spread
over them, then, for a truthy non-`auto` language, `language_code` is set
and `language_detection` deleted. -/
def startTranscriptionRequest (audioUrl : String) (options : JObj) : JObj :=
  let lang := jlookup options "language"
  let detection := !(jsTruthyO lang) || lang = some (.jstr "auto")
  let req := jspread
    [("audio_url", .jstr audioUrl),
     ("language_detection", .jbool detection),
     ("punctuate", .jbool true),
     ("format_text", .jbool true)] options
  if jsTruthyO lang && !(lang = some (.jstr "auto")) then
    jdel (jset req "language_code" (lang.getD .jnull)) "language_detection"
  else req

/-- A vendor HTTP response: success value, or failure with status and body. -/
inductive NetResp (α : Type) where
  | ok (a : α)
  | fail (status : Nat) (body : String)
deriving DecidableEq, Repr

/-- The remote transcription vendor, as the three endpoints the client uses:
binary upload (by file path), job submission (by request object) and the
status sequence for a job id. -/
structure Vendor where
  upload : String → NetResp String
  submit : JObj → NetResp String
  polls : String → List PollResp

/-- The result record `transcribeAudio` resolves with. -/
structure TranscriptionResult where
  text : String
  confidence : ℚ
  language_code : JVal
  words : Option JVal
  utterances : Option JVal
deriving DecidableEq, Repr

/-- Outcome of `transcribeAudio`: resolution, rejection, or divergence
inherited from the unbounded polling loop. -/
inductive TOutcome where
  | ok (r : TranscriptionResult)
  | err (msg : String)
  | hang
deriving DecidableEq, Repr

/-- A run of `transcribeAudio`: outcome plus how many upload, submission and
status requests were issued to the vendor. -/
structure TranscribeRun where
  outcome : TOutcome
  uploads : Nat
  submits : Nat
  pollRequests : Nat
deriving Repr

/-- The placeholder text returned without a configured credential. -/
def simulatedTranscriptionText (filePath : String) : String :=
  "Transcrição simulada usando AssemblyAI para o arquivo: " ++ jsBasename filePath
    ++ "\n\nEsta é uma demonstração. Para funcionar de verdade, você precisa "
    ++ "configurar sua chave da AssemblyAI nas variáveis de ambiente."

/-- The placeholder credential value (`'sua-chave-aqui'`, the default when the
environment variable is absent). -/
def placeholderKey : String := "sua-chave-aqui"

/-- `transcribeAudio` (src/server.js lines 215-238): with the placeholder
credential, short-circuit to the simulated result (no vendor interaction);
otherwise upload, submit, and poll, propagating the first error. -/
def transcribeAudio (apiKey : String) (v : Vendor) (filePath : String)
    (options : JObj) : TranscribeRun :=
  if apiKey = placeholderKey then
    { outcome := .ok
        { text := simulatedTranscriptionText filePath
          confidence := 95 / 100
          language_code := jsOrDefault (jlookup options "language") (.jstr "pt")
          words := none
          utterances := none }
      uploads := 0, submits := 0, pollRequests := 0 }
  else
    match v.upload filePath with
    | .fail st body =>
      ⟨.err ("Erro no upload: " ++ toString st ++ " - " ++ body), 1, 0, 0⟩
    | .ok audioUrl =>
      match v.submit (startTranscriptionRequest audioUrl options) with
      | .fail st body =>
        ⟨.err ("Erro ao iniciar transcrição: " ++ toString st ++ " - " ++ body), 1, 1, 0⟩
      | .ok id =>
        let w := waitForTranscription (v.polls id)
        match w.result with
        | .done d =>
          ⟨.ok ⟨d.text, d.confidence, d.language_code, d.words, d.utterances⟩,
            1, 1, w.requests⟩
        | .failed m => ⟨.err m, 1, 1, w.requests⟩
        | .pending => ⟨.hang, 1, 1, w.requests⟩

/-- The `try` block of `cleanupFile` (src/server.js lines 105-114): if the
path exists, unlink it; `uf p = true` means the unlink syscall fails (the
exception the `catch` must swallow).  A `none` path models the route's
still-null variables (`fs.existsSync` is false for them). -/
def cleanupTry (uf : String → Bool) (files : List String) :
    Option String → Except String (List String)
  | none => .ok files
  | some p =>
    if p ∈ files then
      if uf p then .error ("Erro ao remover arquivo: " ++ p)
      else .ok (files.erase p)
    else .ok files

/-- `cleanupFile`: the `try` block with its `catch` swallowing any deletion
failure (logged only), so the function itself never throws. -/
def cleanupFile (uf : String → Bool) (files : List String) (p : Option String) :
    List String :=
  match cleanupTry uf files p with
  | .ok files2 => files2
  | .error _ => files

/-- An HTTP response the route sends: status code and JSON body. -/
structure HttpResp where
  status : Nat
  body : JObj
deriving DecidableEq, Repr

/-- Outcome of a route handler's `try`/`catch` body, before the `finally`
block runs: the response (`none` when the body never resolves, in which case
`finally` never runs either), the file store it left behind, and the current
values of the two path variables the `finally` block will clean. -/
structure BodyOut where
  response : Option HttpResp
  fs : List String
  audioPath : Option String
  convertedPath : Option String

/-- A full route run: response, final file store, and the arguments of the
`cleanupFile` calls the `finally` block made, in order. -/
structure RouteRun where
  response : Option HttpResp
  fsFinal : List String
  cleaned : List (Option String)

/-- Environment of one request: file store and sizes, the `play.validate`
verdict per URL, the download outcome (`none` = stream finished, `some e` =
stream error `e`), the ffmpeg oracle, the configured credential and the
vendor. -/
structure Env where
  fsv : FSView
  urlVerdict : String → String
  download : Option String
  ff : String → String → Option String
  apiKey : String
  vendor : Vendor

/-- The transcription options object a route builds from its `language`
field: `\x7b language \x7d` for a truthy non-`auto` value, else empty
(src/server.js lines 334-337). -/
def routeOptions (language : Option String) : JObj :=
  match language with
  | some l => if l ≠ "" ∧ l ≠ "auto" then [("language", .jstr l)] else []
  | none => []

/-- The 500 payload of the YouTube route. -/
def ytFail (msg : String) : HttpResp :=
  ⟨500, [("error", .jstr ("Erro ao processar vídeo do YouTube: " ++ msg))]⟩

/-- The 200 payload both transcription routes send. -/
def okResp (r : TranscriptionResult) : HttpResp :=
  ⟨200, [("transcription", .jstr r.text),
         ("confidence", .jnum r.confidence),
         ("language_detected", r.language_code)]⟩

/-- The `try`/`catch` body of `POST /api/transcribe-youtube`
(src/server.js lines 293-351): validate the URL, assign the two temp paths,
stream the download (creating the raw file), convert, transcribe; any thrown
error becomes the 500 response.  `ts1`/`ts2` are the two `Date.now()` reads. -/
def ytBody (env : Env) (url : String) (language : Option String)
    (ts1 ts2 : Nat) : BodyOut :=
  if env.urlVerdict url ≠ "yt_video" then
    ⟨some ⟨400, [("error", .jstr "URL do YouTube inválida ou não suportada")]⟩,
      env.fsv.files, none, none⟩
  else
    let audioPath := "temp_youtube_" ++ toString ts1 ++ ".webm"
    let convertedPath := "temp_youtube_" ++ toString ts2 ++ ".wav"
    let fs1 := audioPath :: env.fsv.files
    let step : Option HttpResp × List String :=
      match env.download with
      | some e => (some (ytFail e), fs1)
      | none =>
        match (convertVideoToAudio env.ff audioPath convertedPath).result with
        | .err e => (some (ytFail e), fs1)
        | .diverged => (none, fs1)
        | .ok p =>
          match (transcribeAudio env.apiKey env.vendor p
              (routeOptions language)).outcome with
          | .err m => (some (ytFail m), p :: fs1)
          | .hang => (none, p :: fs1)
          | .ok r => (some (okResp r), p :: fs1)
    ⟨step.1, step.2, some audioPath, some convertedPath⟩

/-- `POST /api/transcribe-youtube` with its `finally` block: when the body
resolves, `cleanupFile` is applied to the current values of `audioPath` and
`convertedPath`, in that order; a body that never resolves never reaches
`finally`. -/
def transcribeYoutubeRoute (uf : String → Bool) (env : Env) (url : String)
    (language : Option String) (ts1 ts2 : Nat) : RouteRun :=
  let b := ytBody env url language ts1 ts2
  match b.response with
  | none => ⟨none, b.fs, []⟩
  | some r =>
    let f1 := cleanupFile uf b.fs b.audioPath
    let f2 := cleanupFile uf f1 b.convertedPath
    ⟨some r, f2, [b.audioPath, b.convertedPath]⟩

/-- The uploaded file as multer hands it to the route. -/
structure UploadedFile where
  path : String
  filename : String
  originalname : String
deriving DecidableEq, Repr

/-- Node `path.basename(name, ext)`: the basename with the suffix `ext`
stripped, unless the basename equals `ext` itself. -/
def jsBasenameExt (name ext : String) : String :=
  let b := jsBasename name
  if b ≠ ext ∧ endsWithS b ext then ⟨b.data.take (b.data.length - ext.data.length)⟩
  else b

/-- The converted-audio path the upload route derives from the stored
filename (src/server.js lines 395-397). -/
def convertedPathFor (f : UploadedFile) : String :=
  "uploads/" ++ jsBasenameExt f.filename (jsExtname f.filename) ++ "_converted.wav"

/-- The 500 payload of the upload route. -/
def fileFail (msg : String) : HttpResp :=
  ⟨500, [("error", .jstr ("Erro ao processar arquivo: " ++ msg))]⟩

/-- The `try`/`catch` body of `POST /api/transcribe-file`
(src/server.js lines 380-414): missing file and validation failure are 400s,
then conversion and transcription as in the YouTube route. -/
def fileBody (env : Env) (file : Option UploadedFile)
    (language : Option String) : BodyOut :=
  match file with
  | none =>
    ⟨some ⟨400, [("error", .jstr "Nenhum arquivo enviado")]⟩,
      env.fsv.files, none, none⟩
  | some f =>
    match validateMediaFile env.fsv f.path f.originalname with
    | .error m =>
      ⟨some ⟨400, [("error", .jstr ("Arquivo inválido: " ++ m))]⟩,
        env.fsv.files, some f.path, none⟩
    | .ok _ =>
      let convertedPath := convertedPathFor f
      let step : Option HttpResp × List String :=
        match (convertVideoToAudio env.ff f.path convertedPath).result with
        | .err e => (some (fileFail e), env.fsv.files)
        | .diverged => (none, env.fsv.files)
        | .ok p =>
          match (transcribeAudio env.apiKey env.vendor p
              (routeOptions language)).outcome with
          | .err m => (some (fileFail m), p :: env.fsv.files)
          | .hang => (none, p :: env.fsv.files)
          | .ok r => (some (okResp r), p :: env.fsv.files)
      ⟨step.1, step.2, some f.path, some convertedPath⟩

/-- `POST /api/transcribe-file` with its `finally` block: `cleanupFile` on
`req.file?.path` and then on `convertedPath`, whenever the body resolved. -/
def transcribeFileRoute (uf : String → Bool) (env : Env)
    (file : Option UploadedFile) (language : Option String) : RouteRun :=
  let b := fileBody env file language
  match b.response with
  | none => ⟨none, b.fs, []⟩
  | some r =>
    let f1 := cleanupFile uf b.fs (file.map (fun f => f.path))
    let f2 := cleanupFile uf f1 b.convertedPath
    ⟨some r, f2, [file.map (fun f => f.path), b.convertedPath]⟩

lemma isPrefixL_length {p s : List Char} (h : isPrefixL p s = true) :
    p.length ≤ s.length := by
  induction p generalizing s with
  | nil => simp
  | cons c cs ih =>
    cases s with
    | nil => simp [isPrefixL] at h
    | cons d ds =>
      simp only [isPrefixL, Bool.and_eq_true] at h
      simpa [Nat.succ_le_succ_iff] using ih h.2

lemma endsWithS_length {s pat : String} (h : endsWithS s pat = true) :
    pat.data.length ≤ s.data.length := by
  unfold endsWithS at h
  simpa using isPrefixL_length h

lemma ends_mp3_not_wav (out : String) (h : endsWithS out ".mp3" = true) :
    endsWithS out ".wav" = false := by
  have e1 : (".mp3" : String).data.reverse = ['3', 'p', 'm', '.'] := by decide
  have e2 : (".wav" : String).data.reverse = ['v', 'a', 'w', '.'] := by decide
  unfold endsWithS at h ⊢
  rw [e1] at h
  rw [e2]
  cases hr : out.data.reverse with
  | nil => rw [hr] at h; exact absurd h (by decide)
  | cons c cs =>
    rw [hr] at h
    simp only [isPrefixL, Bool.and_eq_true, decide_eq_true_eq] at h
    obtain ⟨hc, -⟩ := h
    subst hc
    simp [isPrefixL]

lemma convertAux_succ_ok (ff : String → String → Option String)
    (inp out : String) (fuel : Nat) (h : ff inp out = none) :
    convertAux ff inp (fuel + 1) out = ⟨.ok out, [out]⟩ := by
  simp [convertAux, h]

lemma convertAux_succ_wavfail (ff : String → String → Option String)
    (inp out e : String) (fuel : Nat)
    (h1 : endsWithS out ".wav" = true) (h2 : ff inp out = some e) :
    convertAux ff inp (fuel + 1) out = ⟨.err e, [out]⟩ := by
  simp [convertAux, h1, h2]

lemma convertAux_succ_mp3fail (ff : String → String → Option String)
    (inp out e : String) (fuel : Nat)
    (h1 : endsWithS out ".mp3" = true) (h2 : ff inp out = some e) :
    convertAux ff inp (fuel + 1) out =
      ⟨(convertAux ff inp fuel (jsReplaceFirst out ".mp3" ".wav")).result,
       out :: (convertAux ff inp fuel (jsReplaceFirst out ".mp3" ".wav")).attempts⟩ := by
  have hw := ends_mp3_not_wav out h1
  simp [convertAux, h1, h2, hw]

lemma mp3_target_length_succ {out : String} (h : endsWithS out ".mp3" = true) :
    ∃ k, out.data.length = k + 1 := by
  have h4 : (".mp3" : String).data.length ≤ out.data.length := endsWithS_length h
  have : (".mp3" : String).data.length = 4 := by decide
  exact ⟨out.data.length - 1, by omega⟩

/-- C2: a conversion targeting a `.wav` output path that fails rejects
terminally with the encoder error after a single encoder invocation, and a
failed `.mp3` target whose fallback path (first `.mp3` replaced by `.wav`)
is itself a `.wav` path performs the fallback at most once: at most two
encoder invocations in total.  (The depth-one bound does not hold for every
output path, only for those whose fallback target ends in `.wav`; see the
counterexample.) -/
theorem convert_wav_terminal_and_single_fallback
    (ff : String → String → Option String) (inp out e : String)
    (hff : ff inp out = some e) :
    (endsWithS out ".wav" = true →
      convertVideoToAudio ff inp out = ⟨.err e, [out]⟩) ∧
    (endsWithS out ".mp3" = true →
      endsWithS (jsReplaceFirst out ".mp3" ".wav") ".wav" = true →
      (convertVideoToAudio ff inp out).attempts.length ≤ 2) := by
  constructor
  · intro hw
    unfold convertVideoToAudio
    exact convertAux_succ_wavfail ff inp out e out.data.length hw hff
  · intro hm hwav
    obtain ⟨k, hk⟩ := mp3_target_length_succ hm
    unfold convertVideoToAudio
    rw [convertAux_succ_mp3fail ff inp out e out.data.length hm hff, hk]
    cases hfw : ff inp (jsReplaceFirst out ".mp3" ".wav") with
    | none => rw [convertAux_succ_ok ff inp _ k hfw]; simp
    | some e2 => rw [convertAux_succ_wavfail ff inp _ e2 k hwav hfw]; simp

/-- C2 witness: concrete instantiation of both conjuncts. -/
theorem convert_wav_terminal_and_single_fallback_witness :
    convertVideoToAudio (fun _ _ => some "boom") "i" "x.wav"
        = ⟨.err "boom", ["x.wav"]⟩ ∧
    (convertVideoToAudio (fun _ _ => some "boom") "i" "x.mp3").attempts.length ≤ 2 :=
  ⟨(convert_wav_terminal_and_single_fallback (fun _ _ => some "boom") "i" "x.wav"
      "boom" rfl).1 (by decide),
   (convert_wav_terminal_and_single_fallback (fun _ _ => some "boom") "i" "x.mp3"
      "boom" rfl).2 (by decide) (by decide)⟩

/-- C2 counterexample: for the output path `"a.mp3.mp3"` with an encoder that
always fails, the error handler recurses twice, not at most once: three
encoder invocations are issued, so the recursion is not bounded at depth one
for every output path. -/
theorem convert_double_fallback_cex :
    (convertVideoToAudio (fun _ _ => some "boom") "i" "a.mp3.mp3").attempts
        = ["a.mp3.mp3", "a.wav.mp3", "a.wav.wav"] ∧
    (convertVideoToAudio (fun _ _ => some "boom") "i" "a.mp3.mp3").attempts.length = 3 := by
  decide

/-- C3: for every output path ending in `.mp3`, if the first conversion
attempt fails for any reason, `convertVideoToAudio` retries exactly once
targeting the path obtained by replacing the first `.mp3` with `.wav`, and
when that retry succeeds it resolves with the WAV path, having issued exactly
the two encoder invocations. -/
theorem convert_mp3_retry_wav
    (ff : String → String → Option String) (inp out e : String)
    (hm : endsWithS out ".mp3" = true) (hff : ff inp out = some e)
    (hwav : ff inp (jsReplaceFirst out ".mp3" ".wav") = none) :
    convertVideoToAudio ff inp out =
      ⟨.ok (jsReplaceFirst out ".mp3" ".wav"),
       [out, jsReplaceFirst out ".mp3" ".wav"]⟩ := by
  obtain ⟨k, hk⟩ := mp3_target_length_succ hm
  unfold convertVideoToAudio
  rw [convertAux_succ_mp3fail ff inp out e out.data.length hm hff, hk,
    convertAux_succ_ok ff inp _ k hwav]

/-- C3 witness: a failing `.mp3` conversion whose WAV retry succeeds. -/
theorem convert_mp3_retry_wav_witness :
    convertVideoToAudio (fun _ o => if o = "b.wav" then none else some "e") "i" "b.mp3"
      = ⟨.ok "b.wav", ["b.mp3", "b.wav"]⟩ :=
  convert_mp3_retry_wav (fun _ o => if o = "b.wav" then none else some "e")
    "i" "b.mp3" "e" (by decide) (by decide) (by decide)

/-- C3 counterexample: the claim quantifies over every compressed (non-`.wav`)
target extension, but a failing conversion to the non-`.wav`, non-`.mp3`
target `"a.m4a"` rejects terminally after one encoder invocation and never
retries a WAV path. -/
theorem convert_m4a_no_retry_cex :
    convertVideoToAudio (fun _ _ => some "boom") "i" "a.m4a"
      = ⟨.err "boom", ["a.m4a"]⟩ := by
  decide

/-- C4: one status request is issued per vendor response with the fixed
3000 ms delay between consecutive requests, stopping at the first terminal
response: for the sequence `processing`, `processing`, `completed` (followed
by anything), exactly three requests are issued, exactly two 3-second waits
happen between them, and the full payload of the completed response is
returned. -/
theorem poll_three_requests (d1 d2 d3 : TranscriptData) (rest : List PollResp)
    (h1 : d1.status = "processing") (h2 : d2.status = "processing")
    (h3 : d3.status = "completed") :
    waitForTranscription (.json d1 :: .json d2 :: .json d3 :: rest)
      = ⟨.done d3, 3, [3000, 3000]⟩ := by
  simp [waitForTranscription, h1, h2, h3]

/-- C4 witness: a concrete processing, processing, completed sequence. -/
theorem poll_three_requests_witness :
    waitForTranscription
      [.json ⟨"processing", "", "", 0, .jnull, none, none⟩,
       .json ⟨"processing", "", "", 0, .jnull, none, none⟩,
       .json ⟨"completed", "", "done", 9 / 10, .jstr "en", none, none⟩]
      = ⟨.done ⟨"completed", "", "done", 9 / 10, .jstr "en", none, none⟩, 3, [3000, 3000]⟩ :=
  poll_three_requests ⟨"processing", "", "", 0, .jnull, none, none⟩
    ⟨"processing", "", "", 0, .jnull, none, none⟩
    ⟨"completed", "", "done", 9 / 10, .jstr "en", none, none⟩ [] rfl rfl rfl

/-- C5: a status response carrying `error` makes `waitForTranscription` fail
with a message containing the vendor-supplied error text, after that single
request and with no further status requests regardless of what responses
would follow. -/
theorem poll_error_terminal (d : TranscriptData) (rest : List PollResp)
    (h : d.status = "error") :
    waitForTranscription (.json d :: rest)
        = ⟨.failed ("Erro na transcrição: " ++ d.error), 1, []⟩ ∧
    ∃ a b : String, "Erro na transcrição: " ++ d.error = a ++ d.error ++ b := by
  refine ⟨by simp [waitForTranscription, h], "Erro na transcrição: ", "", ?_⟩
  simp

/-- C5 witness: the vendor reports `error` with message "bad audio". -/
theorem poll_error_terminal_witness :
    waitForTranscription
        [.json ⟨"error", "bad audio", "", 0, .jnull, none, none⟩,
         .json ⟨"completed", "", "", 0, .jnull, none, none⟩]
        = ⟨.failed ("Erro na transcrição: " ++ "bad audio"), 1, []⟩ ∧
    ∃ a b : String, "Erro na transcrição: " ++ "bad audio" = a ++ "bad audio" ++ b :=
  poll_error_terminal ⟨"error", "bad audio", "", 0, .jnull, none, none⟩
    [.json ⟨"completed", "", "", 0, .jnull, none, none⟩] rfl

lemma jlookup_jset_self (o : JObj) (k : String) (v : JVal) :
    jlookup (jset o k v) k = some v := by
  induction o with
  | nil => simp [jset, jlookup]
  | cons kv rest ih =>
    obtain ⟨k1, v1⟩ := kv
    by_cases hk : k1 = k
    · simp [jset, jlookup, hk]
    · simp [jset, jlookup, hk, ih]

lemma jlookup_jset_other (o : JObj) (k k2 : String) (v : JVal) (hne : k2 ≠ k) :
    jlookup (jset o k v) k2 = jlookup o k2 := by
  induction o with
  | nil => simp [jset, jlookup, Ne.symm hne]
  | cons kv rest ih =>
    obtain ⟨k1, v1⟩ := kv
    by_cases hk : k1 = k
    · subst hk
      simp [jset, jlookup, Ne.symm hne]
    · simp [jset, jlookup, hk, ih]

lemma jlookup_jdel_self (o : JObj) (k : String) :
    jlookup (jdel o k) k = none := by
  induction o with
  | nil => rfl
  | cons kv rest ih =>
    obtain ⟨k1, v1⟩ := kv
    by_cases hk : k1 = k
    · simp [jdel, hk, ih]
    · simp [jdel, jlookup, hk, ih]

lemma jlookup_jdel_other (o : JObj) (k k2 : String) (hne : k2 ≠ k) :
    jlookup (jdel o k) k2 = jlookup o k2 := by
  induction o with
  | nil => rfl
  | cons kv rest ih =>
    obtain ⟨k1, v1⟩ := kv
    by_cases hk : k1 = k
    · subst hk
      simp [jdel, jlookup, Ne.symm hne, ih]
    · by_cases hk2 : k1 = k2
      · simp [jdel, jlookup, hk, hk2, hne, ih]
      · simp [jdel, jlookup, hk, hk2, ih]

lemma jlookup_not_mem (o : JObj) (k : String) (h : k ∉ o.map Prod.fst) :
    jlookup o k = none := by
  induction o with
  | nil => rfl
  | cons kv rest ih =>
    obtain ⟨k1, v1⟩ := kv
    simp only [List.map_cons, List.mem_cons] at h
    push_neg at h
    simp [jlookup, Ne.symm h.1, ih h.2]

lemma jlookup_jspread_of_none (base extra : JObj) (k : String)
    (h : jlookup extra k = none) :
    jlookup (jspread base extra) k = jlookup base k := by
  induction extra generalizing base with
  | nil => rfl
  | cons kv rest ih =>
    obtain ⟨k1, v1⟩ := kv
    by_cases hk : k1 = k
    · simp [jlookup, hk] at h
    · simp only [jlookup, if_neg hk] at h
      show jlookup (jspread (jset base k1 v1) rest) k = jlookup base k
      rw [ih (jset base k1 v1) h, jlookup_jset_other base k1 k v1 (Ne.symm hk)]

lemma jlookup_jspread_of_some (base extra : JObj) (k : String) (v : JVal)
    (hnd : (extra.map Prod.fst).Nodup) (h : jlookup extra k = some v) :
    jlookup (jspread base extra) k = some v := by
  induction extra generalizing base with
  | nil => simp [jlookup] at h
  | cons kv rest ih =>
    obtain ⟨k1, v1⟩ := kv
    simp only [List.map_cons, List.nodup_cons] at hnd
    by_cases hk : k1 = k
    · subst hk
      simp only [jlookup, if_pos rfl] at h
      show jlookup (jspread (jset base k1 v1) rest) k1 = some v
      rw [jlookup_jspread_of_none _ _ _ (jlookup_not_mem rest k1 hnd.1),
        jlookup_jset_self]
      exact h
    · simp only [jlookup, if_neg hk] at h
      exact ih (jset base k1 v1) hnd.2 h

/-- C9: when the caller's options carry a concrete language code `c` (truthy
and not `"auto"`), the job-submission request contains both
`language_code = c` and — because the whole options object is spread verbatim
into the request after the defaults — the raw `language` key with value `c`. -/
theorem spread_leaks_language_key (url : String) (opts : JObj) (c : String)
    (hnd : (opts.map Prod.fst).Nodup)
    (hl : jlookup opts "language" = some (.jstr c))
    (hauto : c ≠ "auto") (hne : c ≠ "") :
    jlookup (startTranscriptionRequest url opts) "language" = some (.jstr c) ∧
    jlookup (startTranscriptionRequest url opts) "language_code" = some (.jstr c) := by
  have hmain : startTranscriptionRequest url opts
      = jdel (jset (jspread
          [("audio_url", .jstr url),
           ("language_detection", .jbool false),
           ("punctuate", .jbool true),
           ("format_text", .jbool true)] opts) "language_code" (.jstr c))
          "language_detection" := by
    simp [startTranscriptionRequest, hl, jsTruthyO, jsTruthy, hne, hauto]
  rw [hmain]
  constructor
  · rw [jlookup_jdel_other _ _ _ (by decide), jlookup_jset_other _ _ _ _ (by decide),
      jlookup_jspread_of_some _ _ _ _ hnd hl]
  · rw [jlookup_jdel_other _ _ _ (by decide), jlookup_jset_self]

/-- C9 witness: options `\x7b language: "pt" \x7d`. -/
theorem spread_leaks_language_key_witness :
    jlookup (startTranscriptionRequest "u" [("language", JVal.jstr "pt")]) "language"
        = some (.jstr "pt") ∧
    jlookup (startTranscriptionRequest "u" [("language", JVal.jstr "pt")]) "language_code"
        = some (.jstr "pt") :=
  spread_leaks_language_key "u" [("language", JVal.jstr "pt")] "pt"
    (by decide) (by decide) (by decide) (by decide)

/-- C6 (amended): for options that do not themselves carry a `punctuate`
(resp. `format_text`, `language_detection`) key — in particular for the
options objects this repository ever builds, which carry at most a `language`
key — the job-submission request has `punctuate = true` (resp.
`format_text = true`; and, when the options carry no language or the language
`"auto"`, `language_detection = true`); and for every options value without
exception (the overriding spread notwithstanding), a concrete language code
`c` yields `language_code = c` verbatim with the `language_detection` key
removed.  The unrestricted claim about the defaults is false because the
options spread overrides them (see the counterexample). -/
theorem request_defaults_amended (url : String) (opts : JObj) :
    (jlookup opts "punctuate" = none →
      jlookup (startTranscriptionRequest url opts) "punctuate"
        = some (.jbool true)) ∧
    (jlookup opts "format_text" = none →
      jlookup (startTranscriptionRequest url opts) "format_text"
        = some (.jbool true)) ∧
    (jlookup opts "language_detection" = none →
      (jlookup opts "language" = none ∨ jlookup opts "language" = some (.jstr "auto")) →
      jlookup (startTranscriptionRequest url opts) "language_detection"
        = some (.jbool true)) ∧
    (∀ c : String, jlookup opts "language" = some (.jstr c) → c ≠ "auto" → c ≠ "" →
      jlookup (startTranscriptionRequest url opts) "language_code" = some (.jstr c) ∧
      jlookup (startTranscriptionRequest url opts) "language_detection" = none) := by
  have hsplit : startTranscriptionRequest url opts =
      if (jsTruthyO (jlookup opts "language")
          && !(jlookup opts "language" = some (JVal.jstr "auto"))) = true
      then jdel (jset (jspread
          [("audio_url", JVal.jstr url),
           ("language_detection", JVal.jbool (!(jsTruthyO (jlookup opts "language"))
              || jlookup opts "language" = some (JVal.jstr "auto"))),
           ("punctuate", JVal.jbool true),
           ("format_text", JVal.jbool true)] opts) "language_code"
          ((jlookup opts "language").getD JVal.jnull)) "language_detection"
      else jspread
          [("audio_url", JVal.jstr url),
           ("language_detection", JVal.jbool (!(jsTruthyO (jlookup opts "language"))
              || jlookup opts "language" = some (JVal.jstr "auto"))),
           ("punctuate", JVal.jbool true),
           ("format_text", JVal.jbool true)] opts := rfl
  refine ⟨?_, ?_, ?_, ?_⟩
  · intro hp
    rw [hsplit]
    by_cases hc : (jsTruthyO (jlookup opts "language")
        && !(jlookup opts "language" = some (JVal.jstr "auto"))) = true
    · rw [if_pos hc, jlookup_jdel_other _ _ _ (by decide),
        jlookup_jset_other _ _ _ _ (by decide), jlookup_jspread_of_none _ _ _ hp]
      simp [jlookup]
    · rw [if_neg hc, jlookup_jspread_of_none _ _ _ hp]
      simp [jlookup]
  · intro hf
    rw [hsplit]
    by_cases hc : (jsTruthyO (jlookup opts "language")
        && !(jlookup opts "language" = some (JVal.jstr "auto"))) = true
    · rw [if_pos hc, jlookup_jdel_other _ _ _ (by decide),
        jlookup_jset_other _ _ _ _ (by decide), jlookup_jspread_of_none _ _ _ hf]
      simp [jlookup]
    · rw [if_neg hc, jlookup_jspread_of_none _ _ _ hf]
      simp [jlookup]
  · intro hd hlang
    have hcfalse : ¬ (jsTruthyO (jlookup opts "language")
        && !(jlookup opts "language" = some (JVal.jstr "auto"))) = true := by
      rcases hlang with h | h <;> simp [h, jsTruthyO, jsTruthy]
    rw [hsplit, if_neg hcfalse, jlookup_jspread_of_none _ _ _ hd]
    rcases hlang with h | h <;> simp [h, jlookup, jsTruthyO, jsTruthy]
  · intro c hlc hca hcne
    have hc : (jsTruthyO (jlookup opts "language")
        && !(jlookup opts "language" = some (JVal.jstr "auto"))) = true := by
      simp [hlc, jsTruthyO, jsTruthy, hca, hcne]
    rw [hsplit, if_pos hc, hlc]
    constructor
    · rw [jlookup_jdel_other _ _ _ (by decide), jlookup_jset_self]
      rfl
    · rw [jlookup_jdel_self]

/-- C6 witness: options `\x7b language: "pt" \x7d` get the defaults and the
verbatim language code. -/
theorem request_defaults_amended_witness :
    jlookup (startTranscriptionRequest "u" [("language", JVal.jstr "pt")]) "punctuate"
        = some (.jbool true) ∧
    jlookup (startTranscriptionRequest "u" [("language", JVal.jstr "pt")]) "language_code"
        = some (.jstr "pt") ∧
    jlookup (startTranscriptionRequest "u" [("language", JVal.jstr "pt")]) "language_detection"
        = none := by
  obtain ⟨h1, h2, h3, h4⟩ := request_defaults_amended "u" [("language", JVal.jstr "pt")]
  obtain ⟨h5, h6⟩ := h4 "pt" (by decide) (by decide) (by decide)
  exact ⟨h1 (by decide), h5, h6⟩

/-- C6 counterexample: because `...options` is spread into the request after
the defaults are set, an options object carrying `punctuate: false`,
`format_text: false` and `language_detection: false` (and no language) yields
a request with all three flags `false`, contradicting the claim that every
options value gets `punctuate = true`, `format_text = true` and — absent a
language — `language_detection = true`. -/
theorem request_defaults_cex :
    jlookup (startTranscriptionRequest "u"
        [("punctuate", JVal.jbool false), ("format_text", JVal.jbool false),
         ("language_detection", JVal.jbool false)]) "punctuate"
      = some (.jbool false) ∧
    jlookup (startTranscriptionRequest "u"
        [("punctuate", JVal.jbool false), ("format_text", JVal.jbool false),
         ("language_detection", JVal.jbool false)]) "format_text"
      = some (.jbool false) ∧
    jlookup (startTranscriptionRequest "u"
        [("punctuate", JVal.jbool false), ("format_text", JVal.jbool false),
         ("language_detection", JVal.jbool false)]) "language_detection"
      = some (.jbool false) := by
  decide

/-- C7: with the placeholder credential, `transcribeAudio` issues no upload,
no submission and no status request, and resolves with a placeholder result
whose confidence is exactly 0.95 and whose `language_code` is the requested
language option, or the fixed default `"pt"` when none was requested. -/
theorem transcribe_placeholder_no_network (v : Vendor) (filePath : String)
    (opts : JObj) :
    (transcribeAudio placeholderKey v filePath opts).uploads = 0 ∧
    (transcribeAudio placeholderKey v filePath opts).submits = 0 ∧
    (transcribeAudio placeholderKey v filePath opts).pollRequests = 0 ∧
    ∃ r : TranscriptionResult,
      (transcribeAudio placeholderKey v filePath opts).outcome = .ok r ∧
      r.confidence = 95 / 100 ∧
      (∀ c : String, jlookup opts "language" = some (.jstr c) → c ≠ "" →
        r.language_code = .jstr c) ∧
      (jlookup opts "language" = none → r.language_code = .jstr "pt") := by
  refine ⟨rfl, rfl, rfl, _, rfl, rfl, ?_, ?_⟩
  · intro c hc hne
    show jsOrDefault (jlookup opts "language") (.jstr "pt") = .jstr c
    rw [hc]
    simp [jsOrDefault, jsTruthy, hne]
  · intro hnone
    show jsOrDefault (jlookup opts "language") (.jstr "pt") = .jstr "pt"
    rw [hnone]
    rfl

/-- C7 witness: a concrete vendor that would fail every call is never
consulted; the placeholder result carries the requested language. -/
theorem transcribe_placeholder_no_network_witness :
    (transcribeAudio placeholderKey
        ⟨fun _ => .fail 500 "x", fun _ => .fail 500 "x", fun _ => []⟩
        "a/b.wav" [("language", JVal.jstr "en")]).uploads = 0 ∧
    ∃ r : TranscriptionResult,
      (transcribeAudio placeholderKey
          ⟨fun _ => .fail 500 "x", fun _ => .fail 500 "x", fun _ => []⟩
          "a/b.wav" [("language", JVal.jstr "en")]).outcome = .ok r ∧
      r.confidence = 95 / 100 ∧ r.language_code = .jstr "en" := by
  obtain ⟨h1, h2, h3, r, hr, hc, hl, hn⟩ := transcribe_placeholder_no_network
    ⟨fun _ => .fail 500 "x", fun _ => .fail 500 "x", fun _ => []⟩
    "a/b.wav" [("language", JVal.jstr "en")]
  exact ⟨h1, r, hr, hc, hl "en" (by decide) (by decide)⟩

/-- C8: for an existing file, `validateMediaFile` rejects an empty file with
the empty-file error; resolves with size, lowercased extension and original
name when the file is non-empty and the extension is allowed; and rejects a
non-empty file with a disallowed extension with a message containing the
rejecting extension and the list of accepted extensions. -/
theorem validate_media_file_spec (fsv : FSView) (fp name : String)
    (hex : fp ∈ fsv.files) :
    (fsv.size fp = 0 →
      validateMediaFile fsv fp name = .error "Arquivo está vazio") ∧
    (fsv.size fp ≠ 0 → jsToLower (jsExtname name) ∈ allowedExtensions →
      validateMediaFile fsv fp name
        = .ok ⟨fsv.size fp, jsToLower (jsExtname name), name⟩) ∧
    (fsv.size fp ≠ 0 → jsToLower (jsExtname name) ∉ allowedExtensions →
      ∃ msg, validateMediaFile fsv fp name = .error msg ∧
        (∃ a b : String, msg = a ++ (jsToLower (jsExtname name) ++ b)) ∧
        (∃ a2 b2 : String,
          msg = a2 ++ (String.intercalate ", " allowedExtensions ++ b2))) := by
  refine ⟨?_, ?_, ?_⟩
  · intro hz
    simp [validateMediaFile, hex, hz]
  · intro hz hmem
    simp [validateMediaFile, hex, hz, hmem]
  · intro hz hmem
    refine ⟨"Formato não suportado: " ++ jsToLower (jsExtname name)
        ++ ". Formatos aceitos: " ++ String.intercalate ", " allowedExtensions,
      by simp [validateMediaFile, hex, hz, hmem],
      ⟨"Formato não suportado: ",
       ". Formatos aceitos: " ++ String.intercalate ", " allowedExtensions, ?_⟩,
      ⟨"Formato não suportado: " ++ jsToLower (jsExtname name)
        ++ ". Formatos aceitos: ", "", ?_⟩⟩
    · rw [String.append_assoc, String.append_assoc]
    · rw [String.append_empty]

/-- C8 witness: an existing 5-byte file named `"a.MP4"` is accepted with the
lowercased extension; the same file renamed `"a.xyz"` is rejected with a
message naming `.xyz` and the allow-list; a 0-byte file is rejected as
empty. -/
theorem validate_media_file_spec_witness :
    validateMediaFile ⟨["u/f"], fun _ => 5⟩ "u/f" "a.MP4"
        = .ok ⟨5, ".mp4", "a.MP4"⟩ ∧
    (∃ msg, validateMediaFile ⟨["u/f"], fun _ => 5⟩ "u/f" "a.xyz" = .error msg ∧
      (∃ a b : String, msg = a ++ (jsToLower (jsExtname "a.xyz") ++ b)) ∧
      (∃ a2 b2 : String,
        msg = a2 ++ (String.intercalate ", " allowedExtensions ++ b2))) ∧
    validateMediaFile ⟨["u/f"], fun _ => 0⟩ "u/f" "a.MP4"
        = .error "Arquivo está vazio" := by
  refine ⟨?_, ?_, ?_⟩
  · have h := (validate_media_file_spec ⟨["u/f"], fun _ => 5⟩ "u/f" "a.MP4"
      (by decide)).2.1 (by decide) (by decide)
    have h2 : jsToLower (jsExtname "a.MP4") = ".mp4" := by decide
    rw [h2] at h
    exact h
  · exact (validate_media_file_spec ⟨["u/f"], fun _ => 5⟩ "u/f" "a.xyz"
      (by decide)).2.2 (by decide) (by decide)
  · exact (validate_media_file_spec ⟨["u/f"], fun _ => 0⟩ "u/f" "a.MP4"
      (by decide)).1 rfl

/-- C10: `validateMediaFile` checks emptiness before the extension: an
existing zero-byte file is rejected with the empty-file message for every
original name, even one with a disallowed extension, and the empty-file
message is the only error such a file can produce. -/
theorem empty_checked_before_extension (fsv : FSView) (fp name : String)
    (hex : fp ∈ fsv.files) (hz : fsv.size fp = 0) :
    validateMediaFile fsv fp name = .error "Arquivo está vazio" ∧
    ∀ msg, validateMediaFile fsv fp name = .error msg →
      msg = "Arquivo está vazio" := by
  have h : validateMediaFile fsv fp name = .error "Arquivo está vazio" := by
    simp [validateMediaFile, hex, hz]
  refine ⟨h, ?_⟩
  intro msg hm
  rw [h] at hm
  exact (Except.error.injEq _ _ ▸ hm).symm

lemma ytBody_paths (env : Env) (url : String) (language : Option String)
    (ts1 ts2 : Nat) (hv : env.urlVerdict url = "yt_video") :
    (ytBody env url language ts1 ts2).audioPath
        = some ("temp_youtube_" ++ toString ts1 ++ ".webm") ∧
    (ytBody env url language ts1 ts2).convertedPath
        = some ("temp_youtube_" ++ toString ts2 ++ ".wav") := by
  unfold ytBody
  rw [if_neg (by simp [hv])]
  exact ⟨rfl, rfl⟩

lemma transcribeYoutubeRoute_response (uf : String → Bool) (env : Env)
    (url : String) (language : Option String) (ts1 ts2 : Nat) :
    (transcribeYoutubeRoute uf env url language ts1 ts2).response
      = (ytBody env url language ts1 ts2).response := by
  simp only [transcribeYoutubeRoute]
  cases h : (ytBody env url language ts1 ts2).response <;> rfl

lemma transcribeYoutubeRoute_cleaned (uf : String → Bool) (env : Env)
    (url : String) (language : Option String) (ts1 ts2 : Nat)
    (r : HttpResp)
    (hr : (transcribeYoutubeRoute uf env url language ts1 ts2).response = some r) :
    (transcribeYoutubeRoute uf env url language ts1 ts2).cleaned
      = [(ytBody env url language ts1 ts2).audioPath,
         (ytBody env url language ts1 ts2).convertedPath] := by
  simp only [transcribeYoutubeRoute] at hr ⊢
  cases h : (ytBody env url language ts1 ts2).response with
  | none => rw [h] at hr; simp at hr
  | some r2 => rfl

lemma fileBody_paths (env : Env) (f : UploadedFile) (language : Option String)
    (info : FileInfo)
    (hval : validateMediaFile env.fsv f.path f.originalname = .ok info) :
    (fileBody env (some f) language).audioPath = some f.path ∧
    (fileBody env (some f) language).convertedPath
        = some (convertedPathFor f) := by
  simp [fileBody, hval]

lemma transcribeFileRoute_response (uf : String → Bool) (env : Env)
    (file : Option UploadedFile) (language : Option String) :
    (transcribeFileRoute uf env file language).response
      = (fileBody env file language).response := by
  simp only [transcribeFileRoute]
  cases h : (fileBody env file language).response <;> rfl

lemma transcribeFileRoute_cleaned (uf : String → Bool) (env : Env)
    (file : Option UploadedFile) (language : Option String) (r : HttpResp)
    (hr : (transcribeFileRoute uf env file language).response = some r) :
    (transcribeFileRoute uf env file language).cleaned
      = [file.map (fun f => f.path), (fileBody env file language).convertedPath] := by
  simp only [transcribeFileRoute] at hr ⊢
  cases h : (fileBody env file language).response with
  | none => rw [h] at hr; simp at hr
  | some r2 => rfl

/-- C1: for both transcription pipelines — YouTube (past URL validation) and
upload (past file validation) — whenever the pipeline body resolves, the
`finally` block invokes `cleanupFile` on the raw input artifact path and on
the converted audio path; the response is entirely independent of which
deletions fail, so a deletion failure never replaces or masks the pipeline's
result or error; and `cleanupFile` itself never throws: a failing unlink is
swallowed, leaving the file store as it was. -/
theorem cleanup_always_runs_and_never_masks
    (uf uf2 : String → Bool) (env : Env) (url : String)
    (language flang : Option String) (ts1 ts2 : Nat) (f : UploadedFile)
    (files : List String) (p : Option String) :
    (env.urlVerdict url = "yt_video" → ∀ r,
      (transcribeYoutubeRoute uf env url language ts1 ts2).response = some r →
      (transcribeYoutubeRoute uf env url language ts1 ts2).cleaned
        = [some ("temp_youtube_" ++ toString ts1 ++ ".webm"),
           some ("temp_youtube_" ++ toString ts2 ++ ".wav")]) ∧
    ((transcribeYoutubeRoute uf env url language ts1 ts2).response
      = (transcribeYoutubeRoute uf2 env url language ts1 ts2).response) ∧
    ((∃ info, validateMediaFile env.fsv f.path f.originalname = .ok info) →
      ∀ r, (transcribeFileRoute uf env (some f) flang).response = some r →
      (transcribeFileRoute uf env (some f) flang).cleaned
        = [some f.path, some (convertedPathFor f)]) ∧
    ((transcribeFileRoute uf env (some f) flang).response
      = (transcribeFileRoute uf2 env (some f) flang).response) ∧
    (∀ e, cleanupTry uf files p = .error e → cleanupFile uf files p = files) := by
  refine ⟨?_, ?_, ?_, ?_, ?_⟩
  · intro hv r hr
    rw [transcribeYoutubeRoute_cleaned uf env url language ts1 ts2 r hr,
      (ytBody_paths env url language ts1 ts2 hv).1,
      (ytBody_paths env url language ts1 ts2 hv).2]
  · rw [transcribeYoutubeRoute_response, transcribeYoutubeRoute_response]
  · rintro ⟨info, hval⟩ r hr
    rw [transcribeFileRoute_cleaned uf env (some f) flang r hr,
      (fileBody_paths env f flang info hval).2]
    rfl
  · rw [transcribeFileRoute_response, transcribeFileRoute_response]
  · intro e he
    unfold cleanupFile
    rw [he]

/-- C1 witness: a concrete run in which the encoder fails (the pipeline
errors), every unlink fails, and cleanup is still attempted on both paths
while the 500 response is the same as with successful unlinks. -/
theorem cleanup_always_runs_and_never_masks_witness :
    (transcribeYoutubeRoute (fun _ => true)
        ⟨⟨["uploads/1-a.mp4"], fun _ => 5⟩, fun _ => "yt_video", none,
          fun _ _ => some "x", "k",
          ⟨fun _ => .fail 500 "b", fun _ => .fail 500 "b", fun _ => []⟩⟩
        "u" none 1 2).cleaned
      = [some "temp_youtube_1.webm", some "temp_youtube_2.wav"] ∧
    ((transcribeYoutubeRoute (fun _ => true)
        ⟨⟨["uploads/1-a.mp4"], fun _ => 5⟩, fun _ => "yt_video", none,
          fun _ _ => some "x", "k",
          ⟨fun _ => .fail 500 "b", fun _ => .fail 500 "b", fun _ => []⟩⟩
        "u" none 1 2).response
      = (transcribeYoutubeRoute (fun _ => false)
        ⟨⟨["uploads/1-a.mp4"], fun _ => 5⟩, fun _ => "yt_video", none,
          fun _ _ => some "x", "k",
          ⟨fun _ => .fail 500 "b", fun _ => .fail 500 "b", fun _ => []⟩⟩
        "u" none 1 2).response) ∧
    (transcribeFileRoute (fun _ => true)
        ⟨⟨["uploads/1-a.mp4"], fun _ => 5⟩, fun _ => "yt_video", none,
          fun _ _ => some "x", "k",
          ⟨fun _ => .fail 500 "b", fun _ => .fail 500 "b", fun _ => []⟩⟩
        (some ⟨"uploads/1-a.mp4", "1-a.mp4", "a.mp4"⟩) none).cleaned
      = [some "uploads/1-a.mp4",
         some (convertedPathFor ⟨"uploads/1-a.mp4", "1-a.mp4", "a.mp4"⟩)] ∧
    cleanupFile (fun _ => true) ["z"] (some "z") = ["z"] := by
  obtain ⟨h1, h2, h3, h4, h5⟩ := cleanup_always_runs_and_never_masks
    (fun _ => true) (fun _ => false)
    ⟨⟨["uploads/1-a.mp4"], fun _ => 5⟩, fun _ => "yt_video", none,
      fun _ _ => some "x", "k",
      ⟨fun _ => .fail 500 "b", fun _ => .fail 500 "b", fun _ => []⟩⟩
    "u" none none 1 2 ⟨"uploads/1-a.mp4", "1-a.mp4", "a.mp4"⟩ ["z"] (some "z")
  refine ⟨?_, h2, ?_, h5 "Erro ao remover arquivo: z" rfl⟩
  · have := h1 rfl ⟨500,
      [("error", JVal.jstr "Erro ao processar vídeo do YouTube: x")]⟩ (by decide)
    simpa using this
  · have := h3 ⟨⟨5, ".mp4", "a.mp4"⟩, rfl⟩ ⟨500,
      [("error", JVal.jstr "Erro ao processar arquivo: x")]⟩ (by decide)
    simpa using this

/-- C10 witness: an existing zero-byte file whose original name also has a
disallowed extension is rejected as empty, not as unsupported. -/
theorem empty_checked_before_extension_witness :
    validateMediaFile ⟨["u/f"], fun _ => 0⟩ "u/f" "a.xyz"
        = .error "Arquivo está vazio" :=
  (empty_checked_before_extension ⟨["u/f"], fun _ => 0⟩ "u/f" "a.xyz"
    (by decide) rfl).1
